import Mathlib

set_option maxRecDepth 100000

/-!
Verification of the calculator core in `src/main.py` (class `CalculatorLogic`).

The source keeps two pieces of state — a mutable expression buffer (a string)
and a history list — and exposes `clear`, `backspace`, `append_token`,
`toggle_sign`, `invert`, `safe_eval` and `get_display_value`.  This file is a
shallow embedding of that class: the state becomes the structure `CalcState`,
each method becomes a pure function on `CalcState`, and the two host-language
primitives the methods lean on — `float(str)` in `toggle_sign` and
`eval(expr, ..., allowed_names)` in `safe_eval` — are modelled by executable
Lean functions (`pyFloatParse`, `pyEval`) that follow CPython's behaviour on
the expression subset the calculator can produce.

Modelling conventions for the host primitives (each noted again at its
definition):
  * Python floats are modelled at the decimal-string level: a parsed literal
    becomes the exact rational value of its digits, and `str()` prints the
    terminating decimal expansion.  For short decimals (at most sixteen
    significant digits, the realm of every concrete input used below) this
    composition agrees with CPython, because CPython's shortest-roundtrip
    `repr` prints back exactly the short literal that was parsed.  Binary
    rounding, subnormals and scientific-notation rendering are abstracted.
  * Irrational values of transcendental functions are replaced by the
    stand-in `approxReal`; every theorem below depends only on whether an
    evaluation succeeds, fails, or divides by zero, never on those values.
  * The expression grammar covers what the calculator's buttons and key
    bindings can produce: decimal int/float literals, names, attribute
    access, calls, parentheses, `+ - * / // % **` and unary signs.  Anything
    outside (string literals, hex literals, bitwise operators, keywords,
    non-ASCII identifiers) is mapped to a syntax error.
-/

/-! ## Rationals with fully structural normalisation

`Rat`'s normalisation goes through well-founded recursion, which the kernel
cannot unfold, so concrete evaluations could not be checked with `decide`.
`Q` is an unreduced-sign rational with a fuel-based gcd; every operation is
structurally recursive and kernel-computable. -/

structure Q where
  num : Int
  den : Nat
deriving DecidableEq

def gcdFuel : Nat → Nat → Nat → Nat
  | 0, _, b => b
  | _ + 1, 0, b => b
  | fuel + 1, a + 1, b => gcdFuel fuel (b % (a + 1)) (a + 1)

def myGcd (a b : Nat) : Nat := gcdFuel (a + 1) a b

/-- Normalising constructor: divides out the gcd, keeps the sign in `num`. -/
def mkQ (n : Int) (d : Nat) : Q :=
  let g := myGcd n.natAbs d
  ⟨n / (g : Int), d / g⟩

/-- Normalising constructor with an integer denominator (moves its sign up). -/
def mkQI (n d : Int) : Q :=
  if d < 0 then mkQ (-n) d.natAbs else mkQ n d.natAbs

def qZero : Q := ⟨0, 1⟩
def qOne : Q := ⟨1, 1⟩
def intQ (n : Int) : Q := ⟨n, 1⟩

def qAdd (a b : Q) : Q := mkQ (a.num * b.den + b.num * a.den) (a.den * b.den)
def qNeg (a : Q) : Q := ⟨-a.num, a.den⟩
def qSub (a b : Q) : Q := qAdd a (qNeg b)
def qMul (a b : Q) : Q := mkQ (a.num * b.num) (a.den * b.den)
def qDiv (a b : Q) : Q := mkQI (a.num * b.den) (b.num * a.den)
def qAbs (a : Q) : Q := ⟨a.num.natAbs, a.den⟩
def qLt (a b : Q) : Bool := a.num * b.den < b.num * a.den
def qLe (a b : Q) : Bool := a.num * b.den ≤ b.num * a.den
def qFloor (a : Q) : Int := Int.fdiv a.num a.den
def qCeil (a : Q) : Int := -(Int.fdiv (-a.num) a.den)

/-- Integer power of a rational (negative exponents invert; caller rules out
a zero base for those). -/
def qPowI (a : Q) (e : Int) : Q :=
  match e with
  | .ofNat k => mkQ (a.num ^ k) (a.den ^ k)
  | .negSucc k => mkQI ((a.den : Int) ^ (k + 1)) (a.num ^ (k + 1))

/-! ## Python float values

A CPython `float` as observable through `str()`: finite values carry their
decimal-exact rational, and the special values `-0.0`, `±inf`, `nan` are
explicit.  Sign-of-zero subtleties inside compound arithmetic (for example
`-0.0 + -0.0`) are abstracted to `0.0`; negation and parsing, the operations
`toggle_sign` uses, treat `-0.0` faithfully. -/

inductive PyFloat where
  | finite (q : Q)
  | negZero
  | inf (neg : Bool)
  | nan
deriving DecidableEq

/-- Negation of a Python float (`value *= -1` in `toggle_sign`, unary `-` in
`eval`).  `-0.0` is produced from and restored to `0.0`, and the sign of
`nan` is invisible to `str()`, as in CPython. -/
def pyNegF : PyFloat → PyFloat
  | .finite q => if q.num = 0 then .negZero else .finite (qNeg q)
  | .negZero => .finite qZero
  | .inf b => .inf (!b)
  | .nan => .nan

/-- Decimal digits of the fractional remainder `r / d` (invariant `r < d`),
at most 17 of them; terminating expansions (the only ones the claims touch)
are printed exactly, longer ones are truncated. -/
def fracDigits : Nat → Nat → Nat → List Char
  | 0, _, _ => []
  | _ + 1, 0, _ => []
  | fuel + 1, r, d =>
    let r10 := r * 10
    Char.ofNat (48 + r10 / d) :: fracDigits fuel (r10 % d) d

/-- Model of CPython `str()` on a float: `nan`, `inf`, `-inf`, `-0.0`, and
for finite values the sign, the integer part, a dot and the fractional
digits (`"0"` when there are none), e.g. `str(-4.0) = "-4.0"`.
Scientific-notation rendering (|x| >= 1e16 or < 1e-4) is not modelled. -/
def floatStr : PyFloat → String
  | .nan => "nan"
  | .inf true => "-inf"
  | .inf false => "inf"
  | .negZero => "-0.0"
  | .finite q =>
    let a := q.num.natAbs
    let ip := a / q.den
    let rem := a % q.den
    (if q.num < 0 then "-" else "") ++ Nat.repr ip ++ "." ++
      (if rem = 0 then "0" else ⟨fracDigits 17 rem q.den⟩)

/-! ## Model of CPython `float(str)` — used by `toggle_sign` (main.py line 43)

Grammar accepted by CPython's float constructor: optional whitespace, one
optional sign, then either `inf`/`infinity`/`nan` (case-insensitive) or a
decimal magnitude `d+[.d*] | .d+` with an optional `e`-exponent, with
underscores allowed strictly between digits, then optional whitespace.
Magnitudes at or beyond the binary64 range become `inf` (CPython:
`float("1e400") == inf`).  CPython additionally maps non-ASCII decimal
digits and exotic Unicode spaces to ASCII; only the Unicode whitespace set
is modelled, non-ASCII digits are not. -/

/-- Whitespace stripped by CPython's float parser and by `str.strip()`
(`Py_UNICODE_ISSPACE`). -/
def isPySpace (c : Char) : Bool :=
  let n := c.toNat
  decide ((9 ≤ n ∧ n ≤ 13) ∨ (28 ≤ n ∧ n ≤ 31) ∨ n = 32 ∨ n = 133 ∨ n = 160 ∨
    n = 5760 ∨ (8192 ≤ n ∧ n ≤ 8202) ∨ n = 8232 ∨ n = 8233 ∨ n = 8239 ∨
    n = 8287 ∨ n = 12288)

/-- ASCII decimal digit, phrased on `Char.toNat` so that disjointness from
`isPySpace` is a linear-arithmetic fact. -/
def isDig (c : Char) : Bool := decide (48 ≤ c.toNat ∧ c.toNat ≤ 57)

def skipWs (cs : List Char) : List Char := cs.dropWhile isPySpace

/-- Splits off the leading run of digits and underscores. -/
def takeDigRun : List Char → List Char × List Char
  | [] => ([], [])
  | c :: cs =>
    if isDig c || c = '_' then
      let (r, rest) := takeDigRun cs
      (c :: r, rest)
    else ([], c :: cs)

/-- Validity of a digit run containing underscores: non-empty, and every
underscore has a digit immediately on both sides (PEP 515, enforced by both
the tokenizer and `float()`). -/
def undTail : List Char → Bool
  | [] => true
  | '_' :: c :: cs => isDig c && undTail cs
  | c :: cs => isDig c && undTail cs

def undOk : List Char → Bool
  | [] => false
  | c :: cs => isDig c && undTail cs

def digitsVal (l : List Char) : Nat :=
  l.foldl (fun a c => if c = '_' then a else a * 10 + (c.toNat - 48)) 0

def pureDigits (l : List Char) : List Char := l.filter fun c => c ≠ '_'

/-- Decimal number core shared by `float()` and the expression tokenizer:
`digits [. digits] [e-exponent]` with at least one digit before the optional
exponent.  Returns the exact rational value, whether a dot or exponent was
seen (distinguishing int from float literals), and the unconsumed input. -/
def parseDecCore (cs : List Char) : Option (Q × Bool × List Char) :=
  let (ir, rest1) := takeDigRun cs
  let contFrac : Option (Nat × Nat × Bool × List Char) :=
    match rest1 with
    | '.' :: r2 =>
      let (fr, rest2) := takeDigRun r2
      if fr = [] then
        if ir = [] then none else some (digitsVal ir, 0, true, rest2)
      else if undOk fr then
        some (digitsVal ir * 10 ^ (pureDigits fr).length + digitsVal fr,
          (pureDigits fr).length, true, rest2)
      else none
    | _ => if ir = [] then none else some (digitsVal ir, 0, false, rest1)
  match contFrac with
  | none => none
  | some (base, fracLen, sawDot, rest2) =>
    if ir ≠ [] ∧ ¬ undOk ir then none
    else
      match rest2 with
      | 'e' :: r3 => parseDecExp base fracLen r3
      | 'E' :: r3 => parseDecExp base fracLen r3
      | _ => some (mkQ base (10 ^ fracLen), sawDot, rest2)
where
  parseDecExp (base fracLen : Nat) (r3 : List Char) : Option (Q × Bool × List Char) :=
    let (eneg, r4) :=
      match r3 with
      | '-' :: r => (true, r)
      | '+' :: r => (false, r)
      | r => (false, r)
    let (er, rest3) := takeDigRun r4
    if undOk er then
      let e : Int := (if eneg then -1 else 1) * digitsVal er
      let k : Int := e - fracLen
      match k with
      | .ofNat m => some (mkQ (base * 10 ^ m) 1, true, rest3)
      | .negSucc m => some (mkQ base (10 ^ (m + 1)), true, rest3)
    else none

/-- Largest-magnitude threshold: decimal values at or beyond `2^1024`
overflow binary64, so `float()` (and a float literal) yields `inf`. -/
def twoPow1024 : Nat := Nat.shiftLeft 1 1024

def qOverflows (q : Q) : Bool := qLe ⟨(twoPow1024 : Int), 1⟩ (qAbs q)

def mkFiniteF (q : Q) : PyFloat :=
  if qOverflows q then .inf (q.num < 0) else .finite q

/-- Case-insensitive literal match, returning the unconsumed input. -/
def matchCI : List Char → List Char → Option (List Char)
  | [], rest => some rest
  | _ :: _, [] => none
  | p :: ps, c :: cs => if c.toLower = p then matchCI ps cs else none

/-- Unsigned magnitude of `float()`: `inf`, `infinity`, `nan` or a decimal
number, followed only by whitespace. -/
def parseMag (cs : List Char) : Option PyFloat :=
  match cs with
  | [] => none
  | c :: _ =>
    if c = 'i' ∨ c = 'I' then
      match matchCI ['i', 'n', 'f'] cs with
      | some rest =>
        match matchCI ['i', 'n', 'i', 't', 'y'] rest with
        | some rest2 => if skipWs rest2 = [] then some (.inf false) else none
        | none => if skipWs rest = [] then some (.inf false) else none
      | none => none
    else if c = 'n' ∨ c = 'N' then
      match matchCI ['n', 'a', 'n'] cs with
      | some rest => if skipWs rest = [] then some .nan else none
      | none => none
    else if isDig c ∨ c = '.' then
      match parseDecCore cs with
      | some (q, _, rest) => if skipWs rest = [] then some (mkFiniteF q) else none
      | none => none
    else none

/-- One optional sign, then a magnitude; a leading `-` negates (so `"-0"`
parses to `-0.0`, `"-inf"` to negative infinity). -/
def parseSigned (cs : List Char) : Option PyFloat :=
  match cs with
  | [] => none
  | c :: rest =>
    if c = '-' then (parseMag rest).map pyNegF
    else if c = '+' then parseMag rest
    else parseMag (c :: rest)

/-- Model of CPython `float(s)`: `some` value on success, `none` for the
`ValueError` that `toggle_sign` catches. -/
def pyFloatParse (s : String) : Option PyFloat :=
  parseSigned (skipWs s.data)

/-! ## Model of the restricted `eval` — `safe_eval` (main.py lines 59-97)

`safe_eval` runs `eval(expr, ..., allowed_names)` with empty builtins and a
namespace of fourteen math functions plus `pi`, `e`, `abs`, `round`
(main.py lines 68-87).  The model below follows CPython's evaluation of the
expression subset reachable from the calculator's buttons and key bindings
(decimal literals, names, attribute access, calls, parentheses,
`+ - * / // % **`, unary signs).  `EvalErr.zdiv` is `ZeroDivisionError`
(caught first at line 91), `EvalErr.oth` every other exception
(`SyntaxError`, `NameError`, `TypeError`, `ValueError`, `OverflowError` —
caught at line 94), and `EvalErr.syn` a syntax error (also line 94; kept
separate only for readability, both map to the same outcome). -/

inductive PyVal where
  | vInt (n : Int)
  | vFloat (f : PyFloat)
  | vBuiltin (name : String)
deriving DecidableEq

inductive EvalErr where
  | syn
  | zdiv
  | oth
deriving DecidableEq

/-- Model of `str(result)` (main.py line 101): CPython's default rendering
of ints, floats and built-in function objects. -/
def pyStr : PyVal → String
  | .vInt n => Int.repr n
  | .vFloat f => floatStr f
  | .vBuiltin name => "<built-in function " ++ name ++ ">"

/-- Coercion to float for mixed arithmetic; `none` is the `TypeError` of
using a function object as a number. -/
def toF : PyVal → Option PyFloat
  | .vInt n => some (.finite ⟨n, 1⟩)
  | .vFloat f => some f
  | .vBuiltin _ => none

/-- Classified float view: `-0.0` folds into `0.0` for compound arithmetic
(its sign only matters to `str` and negation, handled on `PyFloat`). -/
inductive FV where
  | fin (q : Q)
  | infv (neg : Bool)
  | nanv

def fv : PyFloat → FV
  | .finite q => .fin q
  | .negZero => .fin qZero
  | .inf b => .infv b
  | .nan => .nanv

def qNegOne : Q := ⟨-1, 1⟩

/-- Structural integer power (small exponents only in practice). -/
def ipow (a : Int) : Nat → Int
  | 0 => 1
  | n + 1 => a * ipow a n

def faddF (a b : PyFloat) : PyFloat :=
  match fv a, fv b with
  | .nanv, _ => .nan
  | _, .nanv => .nan
  | .infv s, .infv t => if s = t then .inf s else .nan
  | .infv s, .fin _ => .inf s
  | .fin _, .infv t => .inf t
  | .fin x, .fin y => .finite (qAdd x y)

def fsubF (a b : PyFloat) : PyFloat := faddF a (pyNegF b)

def fmulF (a b : PyFloat) : PyFloat :=
  match fv a, fv b with
  | .nanv, _ => .nan
  | _, .nanv => .nan
  | .infv s, .infv t => .inf (s.xor t)
  | .infv s, .fin y => if y.num = 0 then .nan else .inf (s.xor (y.num < 0))
  | .fin x, .infv t => if x.num = 0 then .nan else .inf (t.xor (x.num < 0))
  | .fin x, .fin y => .finite (qMul x y)

/-- Float true division; CPython raises `ZeroDivisionError` whenever the
divisor is `±0.0`, regardless of the dividend. -/
def fdivF (a b : PyFloat) : Except EvalErr PyFloat :=
  match fv a, fv b with
  | _, .fin y =>
    if y.num = 0 then .error .zdiv
    else
      match fv a with
      | .fin x => .ok (.finite (qDiv x y))
      | .infv s => .ok (.inf (s.xor (y.num < 0)))
      | .nanv => .ok .nan
  | .nanv, _ => .ok .nan
  | _, .nanv => .ok .nan
  | .infv _, .infv _ => .ok .nan
  | .fin _, .infv _ => .ok (.finite qZero)

/-- Float floor division (`//`). -/
def ffloordivF (a b : PyFloat) : Except EvalErr PyFloat :=
  match fv a, fv b with
  | _, .fin y =>
    if y.num = 0 then .error .zdiv
    else
      match fv a with
      | .fin x => .ok (.finite (intQ (qFloor (qDiv x y))))
      | .infv _ => .ok .nan
      | .nanv => .ok .nan
  | .nanv, _ => .ok .nan
  | _, .nanv => .ok .nan
  | .infv _, .infv _ => .ok .nan
  | .fin x, .infv s =>
    if x.num = 0 then .ok (.finite qZero)
    else if (x.num < 0) = s then .ok (.finite qZero) else .ok (.finite qNegOne)

/-- Float modulo: `x - y * floor(x / y)`, result sign following the
divisor, as CPython's float `%`. -/
def fmodF (a b : PyFloat) : Except EvalErr PyFloat :=
  match fv a, fv b with
  | _, .fin y =>
    if y.num = 0 then .error .zdiv
    else
      match fv a with
      | .fin x => .ok (.finite (qSub x (qMul y (intQ (qFloor (qDiv x y))))))
      | .infv _ => .ok .nan
      | .nanv => .ok .nan
  | .nanv, _ => .ok .nan
  | _, .nanv => .ok .nan
  | .infv _, .infv _ => .ok .nan
  | .fin x, .infv s =>
    if x.num = 0 then .ok (.finite qZero)
    else if (x.num < 0) = s then .ok (.finite x) else .ok (.inf s)

/-- Rational stand-in for irrational real values (transcendental functions,
non-integer powers).  Every theorem in this file depends only on whether an
evaluation succeeds, fails or divides by zero — never on these values;
CPython computes the IEEE-754 approximation instead.  The same stand-in
covers the complex value CPython returns for a negative base raised to a
fractional power (still a success, which is all that matters here). -/
def approxReal (tag : String) (x y : Q) : Q :=
  match tag with
  | _ => qAdd x y

/-- Float power (`**`), CPython `float_pow` special cases included:
`x ** 0 = 1`, `1 ** y = 1`, `0.0 ** negative` raises `ZeroDivisionError`,
signed infinities by magnitude, `nan` propagation. -/
def fpowF (a b : PyFloat) : Except EvalErr PyFloat :=
  match fv b with
  | .fin e =>
    if e.num = 0 then .ok (.finite qOne)
    else
      match fv a with
      | .fin x =>
        if x = qOne then .ok (.finite qOne)
        else if x.num = 0 then
          if e.num < 0 then .error .zdiv else .ok (.finite qZero)
        else if e.den = 1 then .ok (mkFiniteF (qPowI x e.num))
        else .ok (.finite (approxReal "powf" x e))
      | .infv s =>
        if e.num < 0 then .ok (.finite qZero)
        else .ok (.inf (s && e.den = 1 && e.num % 2 ≠ 0))
      | .nanv => .ok .nan
  | .infv s =>
    match fv a with
    | .fin x =>
      if x = qOne ∨ x = qNegOne then .ok (.finite qOne)
      else if x.num = 0 then
        if s then .error .zdiv else .ok (.finite qZero)
      else if qLt (qAbs x) qOne then
        if s then .ok (.inf false) else .ok (.finite qZero)
      else
        if s then .ok (.finite qZero) else .ok (.inf false)
    | .infv _ => if s then .ok (.finite qZero) else .ok (.inf false)
    | .nanv => .ok .nan
  | .nanv =>
    match fv a with
    | .fin x => if x = qOne then .ok (.finite qOne) else .ok .nan
    | _ => .ok .nan

def pyAdd : PyVal → PyVal → Except EvalErr PyVal
  | .vInt a, .vInt b => .ok (.vInt (a + b))
  | a, b =>
    match toF a, toF b with
    | some x, some y => .ok (.vFloat (faddF x y))
    | _, _ => .error .oth

def pySub : PyVal → PyVal → Except EvalErr PyVal
  | .vInt a, .vInt b => .ok (.vInt (a - b))
  | a, b =>
    match toF a, toF b with
    | some x, some y => .ok (.vFloat (fsubF x y))
    | _, _ => .error .oth

def pyMul : PyVal → PyVal → Except EvalErr PyVal
  | .vInt a, .vInt b => .ok (.vInt (a * b))
  | a, b =>
    match toF a, toF b with
    | some x, some y => .ok (.vFloat (fmulF x y))
    | _, _ => .error .oth

/-- True division: int/int yields a float (its exact rational here;
CPython rounds to binary64 — abstraction noted in the module comment). -/
def pyDiv : PyVal → PyVal → Except EvalErr PyVal
  | .vInt a, .vInt b =>
    if b = 0 then .error .zdiv else .ok (.vFloat (.finite (mkQI a b)))
  | a, b =>
    match toF a, toF b with
    | some x, some y => (fdivF x y).map .vFloat
    | _, _ => .error .oth

def pyFloorDiv : PyVal → PyVal → Except EvalErr PyVal
  | .vInt a, .vInt b =>
    if b = 0 then .error .zdiv else .ok (.vInt (Int.fdiv a b))
  | a, b =>
    match toF a, toF b with
    | some x, some y => (ffloordivF x y).map .vFloat
    | _, _ => .error .oth

def pyMod : PyVal → PyVal → Except EvalErr PyVal
  | .vInt a, .vInt b =>
    if b = 0 then .error .zdiv else .ok (.vInt (Int.fmod a b))
  | a, b =>
    match toF a, toF b with
    | some x, some y => (fmodF x y).map .vFloat
    | _, _ => .error .oth

/-- Power: int ** non-negative int stays an int; int ** negative int is a
float (`0 ** -1` raises `ZeroDivisionError`); anything float-valued goes
through `fpowF`. -/
def pyPow : PyVal → PyVal → Except EvalErr PyVal
  | .vInt a, .vInt b =>
    (match b with
     | .ofNat k => .ok (.vInt (ipow a k))
     | .negSucc _ =>
       if a = 0 then .error .zdiv
       else .ok (.vFloat (mkFiniteF (qPowI ⟨a, 1⟩ b))))
  | a, b =>
    match toF a, toF b with
    | some x, some y => (fpowF x y).map .vFloat
    | _, _ => .error .oth

def pyNegV : PyVal → Except EvalErr PyVal
  | .vInt n => .ok (.vInt (-n))
  | .vFloat f => .ok (.vFloat (pyNegF f))
  | .vBuiltin _ => .error .oth

def pyPosV : PyVal → Except EvalErr PyVal
  | .vInt n => .ok (.vInt n)
  | .vFloat f => .ok (.vFloat f)
  | .vBuiltin _ => .error .oth

/-- Attribute access under `eval`.  The empty `__builtins__` dict does NOT
block attribute access, so numeric data attributes such as `pi.real`
resolve — this is the well-known escape surface of the allowlist sandbox.
CPython exposes far more (methods, dunders reaching arbitrary classes); the
model keeps the numeric data attributes and maps the rest to
`AttributeError`, which only under-reports what the real `eval` lets
through. -/
def pyAttr (v : PyVal) (a : String) : Except EvalErr PyVal :=
  match v with
  | .vFloat f =>
    if a = "real" then .ok (.vFloat f)
    else if a = "imag" then .ok (.vFloat (.finite qZero))
    else .error .oth
  | .vInt n =>
    if a = "real" then .ok (.vInt n)
    else if a = "imag" then .ok (.vInt 0)
    else if a = "numerator" then .ok (.vInt n)
    else if a = "denominator" then .ok (.vInt 1)
    else .error .oth
  | .vBuiltin _ => .error .oth

/-- Exact decimals of `math.pi` and `math.e` as printed by `str()` — the
shortest-roundtrip representation, the right abstraction for a
string-level model. -/
def piQ : Q := mkQ 3141592653589793 1000000000000000

def eQ : Q := mkQ 2718281828459045 1000000000000000

/-- The restricted namespace (main.py lines 68-87): fourteen names from
`math` plus the builtins `abs` and `round`; anything else is a `NameError`
under the empty `__builtins__`. -/
def lookupName (s : String) : Option PyVal :=
  if s = "pi" then some (.vFloat (.finite piQ))
  else if s = "e" then some (.vFloat (.finite eQ))
  else if s = "sin" ∨ s = "cos" ∨ s = "tan" ∨ s = "sqrt" ∨ s = "log" ∨
      s = "log10" ∨ s = "exp" ∨ s = "fabs" ∨ s = "floor" ∨ s = "ceil" ∨
      s = "factorial" ∨ s = "pow" ∨ s = "abs" ∨ s = "round" then
    some (.vBuiltin s)
  else none

/-- Fueled Newton iteration for the integer square root (used only to
detect perfect squares; the fuel is a generous bound, iteration stops as
soon as the guess stabilises). -/
def isqrtGo : Nat → Nat → Nat → Nat
  | 0, _, g => g
  | fuel + 1, n, g =>
    let g2 := (g + n / g) / 2
    if g2 < g then isqrtGo fuel n g2 else g

def isqrt (n : Nat) : Nat := if n ≤ 1 then n else isqrtGo n n n

/-- Exact square root of a non-negative normalised rational, when one
exists. -/
def qSqrtExact (q : Q) : Option Q :=
  let a := q.num.natAbs
  let rn := isqrt a
  let rd := isqrt q.den
  if rn * rn = a ∧ rd * rd = q.den then some ⟨rn, rd⟩ else none

/-- Round half to even (the semantics of the builtin `round`). -/
def bankerRound (q : Q) : Int :=
  let f := qFloor q
  let r := qSub q (intQ f)
  if qLt r ⟨1, 2⟩ then f
  else if qLt ⟨1, 2⟩ r then f + 1
  else if Int.fmod f 2 = 0 then f else f + 1

/-- Two-argument `round` on a rational, to `nd` decimal digits (negative
`nd` rounds at powers of ten). -/
def roundQN (q : Q) (nd : Int) : Q :=
  match nd with
  | .ofNat m =>
    let s : Nat := 10 ^ m
    mkQI (bankerRound (qMul q (intQ s))) s
  | .negSucc m =>
    let s : Nat := 10 ^ (m + 1)
    intQ (bankerRound (qDiv q (intQ s)) * s)

/-- One step of the fueled evaluation of a call to one of the allowed
functions.  Failure modes mirror CPython: wrong arity and non-numeric
arguments are `TypeError`, domain violations `ValueError` (all `.oth`),
`log` with base 1 divides by zero inside `math`, `exp` overflows beyond
the binary64 range. -/
def applyBuiltin (name : String) (args : List PyVal) : Except EvalErr PyVal :=
  match name, args with
  | "sin", [v] => trig1 "sin" qZero v
  | "cos", [v] => trig1 "cos" qOne v
  | "tan", [v] => trig1 "tan" qZero v
  | "exp", [v] =>
    (match toF v with
     | none => .error .oth
     | some f =>
       match fv f with
       | .fin q =>
         if qLe ⟨710, 1⟩ q then .error .oth
         else .ok (.vFloat (.finite (if q = qZero then qOne else approxReal "exp" q qZero)))
       | .infv false => .ok (.vFloat (.inf false))
       | .infv true => .ok (.vFloat (.finite qZero))
       | .nanv => .ok (.vFloat .nan))
  | "log", [v] => log1 "log" v
  | "log10", [v] => log1 "log10" v
  | "log", [v, b] =>
    (match toF v, toF b with
     | some f, some g =>
       (match fv f, fv g with
        | .fin x, .fin y =>
          if qLe x qZero ∨ qLe y qZero then .error .oth
          else if y = qOne then .error .zdiv
          else .ok (.vFloat (.finite (if x = qOne then qZero else approxReal "logb" x y)))
        | .fin x, _ => if qLe x qZero then .error .oth else .ok (.vFloat .nan)
        | _, .fin y => if qLe y qZero then .error .oth else .ok (.vFloat .nan)
        | _, _ => .ok (.vFloat .nan))
     | _, _ => .error .oth)
  | "sqrt", [v] =>
    (match toF v with
     | none => .error .oth
     | some f =>
       match fv f with
       | .fin q =>
         if q.num < 0 then .error .oth
         else
           match qSqrtExact q with
           | some r => .ok (.vFloat (.finite r))
           | none => .ok (.vFloat (.finite (approxReal "sqrt" q qZero)))
       | .infv false => .ok (.vFloat (.inf false))
       | .infv true => .error .oth
       | .nanv => .ok (.vFloat .nan))
  | "fabs", [v] =>
    (match toF v with
     | none => .error .oth
     | some f =>
       match fv f with
       | .fin q => .ok (.vFloat (.finite (qAbs q)))
       | .infv _ => .ok (.vFloat (.inf false))
       | .nanv => .ok (.vFloat .nan))
  | "abs", [v] =>
    (match v with
     | .vInt n => .ok (.vInt n.natAbs)
     | .vFloat f =>
       (match fv f with
        | .fin q => .ok (.vFloat (.finite (qAbs q)))
        | .infv _ => .ok (.vFloat (.inf false))
        | .nanv => .ok (.vFloat .nan))
     | .vBuiltin _ => .error .oth)
  | "floor", [v] => floorCeil1 true v
  | "ceil", [v] => floorCeil1 false v
  | "factorial", [v] =>
    (match v with
     | .vInt n =>
       if n < 0 then .error .oth else .ok (.vInt (Nat.factorial n.toNat))
     | _ => .error .oth)
  | "pow", [a, b] =>
    (match toF a, toF b with
     | some x, some y => powMath x y
     | _, _ => .error .oth)
  | "round", [v] =>
    (match v with
     | .vInt n => .ok (.vInt n)
     | .vFloat f =>
       (match fv f with
        | .fin q => .ok (.vInt (bankerRound q))
        | _ => .error .oth)
     | .vBuiltin _ => .error .oth)
  | "round", [v, nd] =>
    (match nd with
     | .vInt m =>
       (match v with
        | .vInt n => .ok (.vInt (if m < 0 then bankerRound (qDiv (intQ n) (intQ ((10:Nat) ^ (-m).toNat))) * ((10:Nat) ^ (-m).toNat) else n))
        | .vFloat f =>
          (match fv f with
           | .fin q => .ok (.vFloat (.finite (roundQN q m)))
           | .infv s => .ok (.vFloat (.inf s))
           | .nanv => .ok (.vFloat .nan))
        | .vBuiltin _ => .error .oth)
     | _ => .error .oth)
  | _, _ => .error .oth
where
  trig1 (tag : String) (zeroVal : Q) (v : PyVal) : Except EvalErr PyVal :=
    match toF v with
    | none => .error .oth
    | some f =>
      match fv f with
      | .fin q => .ok (.vFloat (.finite (if q = qZero then zeroVal else approxReal tag q qZero)))
      | .infv _ => .error .oth
      | .nanv => .ok (.vFloat .nan)
  log1 (tag : String) (v : PyVal) : Except EvalErr PyVal :=
    match toF v with
    | none => .error .oth
    | some f =>
      match fv f with
      | .fin q =>
        if qLe q qZero then .error .oth
        else .ok (.vFloat (.finite (if q = qOne then qZero else approxReal tag q qZero)))
      | .infv false => .ok (.vFloat (.inf false))
      | .infv true => .error .oth
      | .nanv => .ok (.vFloat .nan)
  floorCeil1 (isFloor : Bool) (v : PyVal) : Except EvalErr PyVal :=
    match v with
    | .vInt n => .ok (.vInt n)
    | .vFloat f =>
      (match fv f with
       | .fin q => .ok (.vInt (if isFloor then qFloor q else qCeil q))
       | _ => .error .oth)
    | .vBuiltin _ => .error .oth
  powMath (x y : PyFloat) : Except EvalErr PyVal :=
    match fv x, fv y with
    | .fin a, .fin b =>
      if b.num = 0 then .ok (.vFloat (.finite qOne))
      else if a = qOne then .ok (.vFloat (.finite qOne))
      else if a.num = 0 then
        if b.num < 0 then .error .oth else .ok (.vFloat (.finite qZero))
      else if a.num < 0 ∧ b.den ≠ 1 then .error .oth
      else if b.den = 1 then .ok (.vFloat (mkFiniteF (qPowI a b.num)))
      else .ok (.vFloat (.finite (approxReal "pow" a b)))
    | _, _ => (fpowF x y).map .vFloat

/-! ## Tokenizer for the expression subset -/

inductive Tok where
  | tInt (n : Nat)
  | tFloat (q : Q)
  | tName (s : String)
  | tOp (s : String)
deriving DecidableEq

/-- ASCII identifier characters (Python also allows non-ASCII identifiers;
the calculator never produces any). -/
def isNameStart (c : Char) : Bool :=
  decide ((65 ≤ c.toNat ∧ c.toNat ≤ 90) ∨ (97 ≤ c.toNat ∧ c.toNat ≤ 122)) || c = '_'

def isNameChar (c : Char) : Bool := isNameStart c || isDig c

def takeNameRun : List Char → List Char × List Char
  | [] => ([], [])
  | c :: cs =>
    if isNameChar c then
      let (r, rest) := takeNameRun cs
      (c :: r, rest)
    else ([], c :: cs)

def headIsDig : List Char → Bool
  | d :: _ => isDig d
  | [] => false

/-- CPython rejects decimal int literals with a leading zero unless every
digit is zero (`eval("07")` is a `SyntaxError`, `eval("00")` is `0`). -/
def leadZeroBad (ir : List Char) : Bool :=
  match pureDigits ir with
  | '0' :: rest => rest ≠ [] && digitsVal ir ≠ 0
  | _ => false

/-- Tokenizer for the modelled expression subset.  A dot starts a number
exactly when followed by a digit (as in CPython's tokenizer), `**` and `//`
are matched greedily, whitespace separates tokens, and any character
outside the subset fails the whole tokenization (a `SyntaxError`). -/
def tokenize : Nat → List Char → Option (List Tok)
  | 0, _ => none
  | _ + 1, [] => some []
  | fuel + 1, c :: cs =>
    if isPySpace c then tokenize fuel cs
    else if isDig c || (c = '.' && headIsDig cs) then
      match parseDecCore (c :: cs) with
      | none => none
      | some (q, isF, rest) =>
        if isF then (tokenize fuel rest).map (Tok.tFloat q :: ·)
        else if leadZeroBad (takeDigRun (c :: cs)).1 then none
        else (tokenize fuel rest).map (Tok.tInt q.num.toNat :: ·)
    else if c = '.' then (tokenize fuel cs).map (Tok.tOp "." :: ·)
    else if isNameStart c then
      let (r, rest) := takeNameRun (c :: cs)
      (tokenize fuel rest).map (Tok.tName ⟨r⟩ :: ·)
    else if c = '*' then
      match cs with
      | '*' :: cs2 => (tokenize fuel cs2).map (Tok.tOp "**" :: ·)
      | _ => (tokenize fuel cs).map (Tok.tOp "*" :: ·)
    else if c = '/' then
      match cs with
      | '/' :: cs2 => (tokenize fuel cs2).map (Tok.tOp "//" :: ·)
      | _ => (tokenize fuel cs).map (Tok.tOp "/" :: ·)
    else if c = '+' ∨ c = '-' ∨ c = '%' ∨ c = '(' ∨ c = ')' ∨ c = ',' then
      (tokenize fuel cs).map (Tok.tOp (String.mk [c]) :: ·)
    else none

/-! ## Parser-evaluator

Precedence climbing following Python's expression grammar for the subset:
`+ -` < `* / // %` < unary `+ -` < `**` (right-associative, its right
operand admitting unary signs) < trailers (attribute access, calls) <
atoms.  Parsing and evaluation are fused; the fuel argument strictly
decreases on every call and is sized generously by the caller (CPython
itself raises on pathologically deep nesting). -/

def pRes := Except EvalErr (PyVal × List Tok)

mutual

def pExpr : Nat → List Tok → Except EvalErr (PyVal × List Tok)
  | 0, _ => .error .syn
  | fuel + 1, ts => do
    let (v, ts) ← pTerm fuel ts
    pExprLoop fuel v ts

def pExprLoop : Nat → PyVal → List Tok → Except EvalErr (PyVal × List Tok)
  | 0, _, _ => .error .syn
  | fuel + 1, v, .tOp "+" :: ts => do
    let (w, ts) ← pTerm fuel ts
    let u ← pyAdd v w
    pExprLoop fuel u ts
  | fuel + 1, v, .tOp "-" :: ts => do
    let (w, ts) ← pTerm fuel ts
    let u ← pySub v w
    pExprLoop fuel u ts
  | _ + 1, v, ts => .ok (v, ts)

def pTerm : Nat → List Tok → Except EvalErr (PyVal × List Tok)
  | 0, _ => .error .syn
  | fuel + 1, ts => do
    let (v, ts) ← pUnary fuel ts
    pTermLoop fuel v ts

def pTermLoop : Nat → PyVal → List Tok → Except EvalErr (PyVal × List Tok)
  | 0, _, _ => .error .syn
  | fuel + 1, v, .tOp "*" :: ts => do
    let (w, ts) ← pUnary fuel ts
    let u ← pyMul v w
    pTermLoop fuel u ts
  | fuel + 1, v, .tOp "/" :: ts => do
    let (w, ts) ← pUnary fuel ts
    let u ← pyDiv v w
    pTermLoop fuel u ts
  | fuel + 1, v, .tOp "//" :: ts => do
    let (w, ts) ← pUnary fuel ts
    let u ← pyFloorDiv v w
    pTermLoop fuel u ts
  | fuel + 1, v, .tOp "%" :: ts => do
    let (w, ts) ← pUnary fuel ts
    let u ← pyMod v w
    pTermLoop fuel u ts
  | _ + 1, v, ts => .ok (v, ts)

def pUnary : Nat → List Tok → Except EvalErr (PyVal × List Tok)
  | 0, _ => .error .syn
  | fuel + 1, .tOp "-" :: ts => do
    let (v, ts) ← pUnary fuel ts
    let u ← pyNegV v
    .ok (u, ts)
  | fuel + 1, .tOp "+" :: ts => do
    let (v, ts) ← pUnary fuel ts
    let u ← pyPosV v
    .ok (u, ts)
  | fuel + 1, ts => pPow fuel ts

def pPow : Nat → List Tok → Except EvalErr (PyVal × List Tok)
  | 0, _ => .error .syn
  | fuel + 1, ts => do
    let (b, ts) ← pTrailer fuel ts
    match ts with
    | .tOp "**" :: ts2 => do
      let (e, ts3) ← pUnary fuel ts2
      let u ← pyPow b e
      .ok (u, ts3)
    | _ => .ok (b, ts)

def pTrailer : Nat → List Tok → Except EvalErr (PyVal × List Tok)
  | 0, _ => .error .syn
  | fuel + 1, ts => do
    let (v, ts) ← pAtom fuel ts
    pTrailerLoop fuel v ts

def pTrailerLoop : Nat → PyVal → List Tok → Except EvalErr (PyVal × List Tok)
  | 0, _, _ => .error .syn
  | fuel + 1, v, .tOp "." :: .tName a :: ts => do
    let u ← pyAttr v a
    pTrailerLoop fuel u ts
  | fuel + 1, v, .tOp "(" :: ts => do
    let (args, ts) ← pArgs fuel ts
    match v with
    | .vBuiltin name => do
      let u ← applyBuiltin name args
      pTrailerLoop fuel u ts
    | _ => .error .oth
  | _ + 1, v, ts => .ok (v, ts)

def pArgs : Nat → List Tok → Except EvalErr (List PyVal × List Tok)
  | 0, _ => .error .syn
  | _ + 1, .tOp ")" :: ts => .ok ([], ts)
  | fuel + 1, ts => do
    let (v, ts) ← pExpr fuel ts
    pArgsLoop fuel [v] ts

def pArgsLoop : Nat → List PyVal → List Tok → Except EvalErr (List PyVal × List Tok)
  | 0, _, _ => .error .syn
  | fuel + 1, acc, .tOp "," :: ts => do
    let (v, ts) ← pExpr fuel ts
    pArgsLoop fuel (acc ++ [v]) ts
  | _ + 1, acc, .tOp ")" :: ts => .ok (acc, ts)
  | _ + 1, _, _ => .error .syn

def pAtom : Nat → List Tok → Except EvalErr (PyVal × List Tok)
  | 0, _ => .error .syn
  | _ + 1, .tInt n :: ts => .ok (.vInt n, ts)
  | _ + 1, .tFloat q :: ts => .ok (.vFloat (mkFiniteF q), ts)
  | _ + 1, .tName s :: ts =>
    (match lookupName s with
     | some v => .ok (v, ts)
     | none => .error .oth)
  | fuel + 1, .tOp "(" :: ts => do
    let (v, ts) ← pExpr fuel ts
    match ts with
    | .tOp ")" :: ts2 => .ok (v, ts2)
    | _ => .error .syn
  | _ + 1, _ => .error .syn

end

/-- Outcome of `eval(expr, ..., allowed_names)` as observed by the
`try`/`except` in `safe_eval`: a value, a `ZeroDivisionError`, or any
other exception. -/
inductive Outcome where
  | ok (v : PyVal)
  | zeroDiv
  | exc
deriving DecidableEq

/-- Model of CPython `eval` on the restricted namespace: tokenize, parse
and evaluate, requiring the whole input to be consumed. -/
def pyEval (s : String) : Outcome :=
  match tokenize (s.data.length + 1) s.data with
  | none => .exc
  | some ts =>
    match pExpr (8 * (ts.length + 1)) ts with
    | .error .zdiv => .zeroDiv
    | .error _ => .exc
    | .ok (v, []) => .ok v
    | .ok (_, _ :: _) => .exc

/-! ## The calculator core — class `CalculatorLogic` (main.py lines 13-111) -/

/-- The two mutable fields set up in `__init__` (main.py lines 16-18). -/
structure CalcState where
  expression : String
  history : List String
deriving DecidableEq

/-- Python `s.startswith("-")` on the buffer (main.py line 49). -/
def startsDash (s : String) : Bool :=
  match s.data with
  | '-' :: _ => true
  | _ => false

/-- Python `s[1:]` (main.py line 50). -/
def strDropFirst (s : String) : String := ⟨s.data.drop 1⟩

/-- Python `s[:-1]` (main.py line 25). -/
def strDropLast (s : String) : String := ⟨s.data.dropLast⟩

/-- Python `s.strip()` (main.py line 65). -/
def pyStrip (s : String) : String :=
  ⟨((s.data.dropWhile isPySpace).reverse.dropWhile isPySpace).reverse⟩

/-- History append with the 20-entry FIFO cap: `history.append(record)`
followed by `if len(history) > 20: history.pop(0)` (main.py lines 102-104). -/
def capHist (l : List String) : List String :=
  if l.length > 20 then l.drop 1 else l

namespace CalculatorLogic

/-- main.py lines 20-21. -/
def clear (st : CalcState) : CalcState := { st with expression := "" }

/-- main.py lines 23-25. -/
def backspace (st : CalcState) : CalcState :=
  if st.expression = "" then st
  else { st with expression := strDropLast st.expression }

/-- The token substitution dict (main.py lines 29-35) as a lookup with
default `mapping.get(token, token)` (line 36). -/
def normalizeToken (token : String) : String :=
  if token = "×" then "*"
  else if token = "÷" then "/"
  else if token = "^" then "**"
  else if token = "π" then "pi"
  else if token = "√" then "sqrt("
  else token

/-- main.py lines 27-37. -/
def append_token (token : String) (st : CalcState) : CalcState :=
  { st with expression := st.expression ++ normalizeToken token }

/-- main.py lines 39-52: empty buffer is a no-op; a buffer accepted by
`float()` is replaced by `str(-value)`; on `ValueError` a leading minus is
stripped or prepended. -/
def toggle_sign (st : CalcState) : CalcState :=
  if st.expression = "" then st
  else
    match pyFloatParse st.expression with
    | some v => { st with expression := floatStr (pyNegF v) }
    | none =>
      if startsDash st.expression then
        { st with expression := strDropFirst st.expression }
      else
        { st with expression := "-" ++ st.expression }

/-- main.py lines 54-57. -/
def invert (st : CalcState) : CalcState :=
  if st.expression = "" then st
  else { st with expression := "1/(" ++ st.expression ++ ")" }

/-- main.py lines 59-108: empty buffer short-circuits to `"0"`; otherwise
the stripped buffer is evaluated; `ZeroDivisionError` and other exceptions
reset the buffer with their fixed messages; success records
`"raw_expr = str(result)"` in the capped history and seeds the buffer with
the result string.  Returns the result string together with the new
state. -/
def safe_eval (st : CalcState) : String × CalcState :=
  if st.expression = "" then ("0", st)
  else
    let raw_expr := st.expression
    let expr := pyStrip raw_expr
    match pyEval expr with
    | .zeroDiv => ("Cannot divide by zero", { st with expression := "" })
    | .exc => ("Invalid expression", { st with expression := "" })
    | .ok result =>
      let display_result := pyStr result
      ( display_result
      , { st with
            expression := display_result
            history := capHist (st.history ++ [raw_expr ++ " = " ++ display_result]) } )

/-- main.py lines 110-111. -/
def get_display_value (st : CalcState) : String :=
  if st.expression = "" then "0" else st.expression

end CalculatorLogic

/-- The public operations of the core, for claims quantifying over "any
public operation". -/
inductive CalcOp where
  | clear
  | backspace
  | append (token : String)
  | toggleSign
  | invert
  | evaluate

def applyOp : CalcOp → CalcState → CalcState
  | .clear, st => CalculatorLogic.clear st
  | .backspace, st => CalculatorLogic.backspace st
  | .append t, st => CalculatorLogic.append_token t st
  | .toggleSign, st => CalculatorLogic.toggle_sign st
  | .invert, st => CalculatorLogic.invert st
  | .evaluate, st => (CalculatorLogic.safe_eval st).2

/-! ## Helper lemmas -/

theorem clear_history_eq (st : CalcState) :
    (CalculatorLogic.clear st).history = st.history := rfl

theorem backspace_history_eq (st : CalcState) :
    (CalculatorLogic.backspace st).history = st.history := by
  unfold CalculatorLogic.backspace
  split <;> rfl

theorem append_token_history_eq (t : String) (st : CalcState) :
    (CalculatorLogic.append_token t st).history = st.history := rfl

theorem toggle_sign_history_eq (st : CalcState) :
    (CalculatorLogic.toggle_sign st).history = st.history := by
  unfold CalculatorLogic.toggle_sign
  split
  · rfl
  · split
    · rfl
    · split <;> rfl

theorem invert_history_eq (st : CalcState) :
    (CalculatorLogic.invert st).history = st.history := by
  unfold CalculatorLogic.invert
  split <;> rfl

theorem safe_eval_of_empty (st : CalcState) (h : st.expression = "") :
    CalculatorLogic.safe_eval st = ("0", st) := by
  unfold CalculatorLogic.safe_eval
  rw [if_pos h]

theorem safe_eval_of_zdiv (st : CalcState) (h : st.expression ≠ "")
    (he : pyEval (pyStrip st.expression) = .zeroDiv) :
    CalculatorLogic.safe_eval st = ("Cannot divide by zero", ⟨"", st.history⟩) := by
  unfold CalculatorLogic.safe_eval
  rw [if_neg h]
  simp only [he]

theorem safe_eval_of_exc (st : CalcState) (h : st.expression ≠ "")
    (he : pyEval (pyStrip st.expression) = .exc) :
    CalculatorLogic.safe_eval st = ("Invalid expression", ⟨"", st.history⟩) := by
  unfold CalculatorLogic.safe_eval
  rw [if_neg h]
  simp only [he]

theorem safe_eval_of_ok (st : CalcState) (v : PyVal) (h : st.expression ≠ "")
    (he : pyEval (pyStrip st.expression) = .ok v) :
    CalculatorLogic.safe_eval st =
      (pyStr v, ⟨pyStr v, capHist (st.history ++ [st.expression ++ " = " ++ pyStr v])⟩) := by
  unfold CalculatorLogic.safe_eval
  rw [if_neg h]
  simp only [he]

theorem isDig_not_space {c : Char} (h : isDig c = true) : isPySpace c = false := by
  have h' := of_decide_eq_true h
  apply decide_eq_false
  intro hc
  rcases hc with h1 | h1 | h1 | h1 | h1 | h1 | h1 | h1 | h1 | h1 | h1 | h1 <;> omega

/-- A successful magnitude parse pins down the head character: it is a
digit, a dot, or the start of `inf`/`nan` — never whitespace or a sign. -/
theorem parseMag_head {cs : List Char} {f : PyFloat} (h : parseMag cs = some f) :
    ∃ c cs', cs = c :: cs' ∧ isPySpace c = false ∧ c ≠ '-' ∧ c ≠ '+' := by
  match cs with
  | [] => simp [parseMag] at h
  | c :: cs' =>
    refine ⟨c, cs', rfl, ?_⟩
    rw [parseMag] at h
    by_cases h1 : c = 'i' ∨ c = 'I'
    · rcases h1 with rfl | rfl <;> exact ⟨by decide, by decide, by decide⟩
    · by_cases h2 : c = 'n' ∨ c = 'N'
      · rcases h2 with rfl | rfl <;> exact ⟨by decide, by decide, by decide⟩
      · by_cases h3 : isDig c = true ∨ c = '.'
        · rcases h3 with hd | rfl
          · refine ⟨isDig_not_space hd, ?_, ?_⟩ <;>
              (intro hcc; subst hcc; exact absurd hd (by decide))
          · exact ⟨by decide, by decide, by decide⟩
        · simp [h1, h2, h3] at h

theorem skipWs_of_not_space {c : Char} {cs : List Char} (h : isPySpace c = false) :
    skipWs (c :: cs) = c :: cs := by
  simp [skipWs, List.dropWhile_cons, h]

theorem parseSigned_of_mag {cs : List Char} {f : PyFloat} (h : parseMag cs = some f) :
    parseSigned cs = some f := by
  obtain ⟨c, cs', rfl, _, hm, hp⟩ := parseMag_head h
  simp [parseSigned, hm, hp, h]

theorem pyFloatParse_of_mag {b : String} {f : PyFloat} (h : parseMag b.data = some f) :
    pyFloatParse b = some f := by
  obtain ⟨c, cs', hcs, hs, _, _⟩ := parseMag_head h
  unfold pyFloatParse
  rw [hcs, skipWs_of_not_space hs, ← hcs]
  exact parseSigned_of_mag h

theorem dash_data (e : String) : ("-" ++ e).data = '-' :: e.data := by
  simp

/-- If `float()` accepts `"-" ++ b` then it accepts `b`: the sign consumes
the dash and the magnitude that follows is itself a complete parse. -/
theorem dash_parse {b : String} {v : PyFloat} (h : pyFloatParse ("-" ++ b) = some v) :
    ∃ w, pyFloatParse b = some w := by
  unfold pyFloatParse at h
  rw [dash_data, skipWs_of_not_space (by decide)] at h
  have h2 : (parseMag b.data).map pyNegF = some v := by
    simpa [parseSigned] using h
  match hm : parseMag b.data with
  | none => rw [hm] at h2; simp at h2
  | some w => exact ⟨w, pyFloatParse_of_mag hm⟩

theorem dash_ne_empty (e : String) : ("-" ++ e) ≠ "" := by
  intro hc
  have := congrArg String.data hc
  rw [dash_data] at this
  exact absurd this (by simp)

theorem startsDash_dash (e : String) : startsDash ("-" ++ e) = true := by
  unfold startsDash
  rw [dash_data]
  rfl

theorem strDropFirst_dash (e : String) : strDropFirst ("-" ++ e) = e := by
  unfold strDropFirst
  rw [dash_data]
  rfl

theorem pyFloatParse_empty : pyFloatParse "" = none := by decide

theorem toggle_prepend (e : String) (hist : List String) (h : e ≠ "")
    (hp : pyFloatParse e = none) (hd : startsDash e = false) :
    CalculatorLogic.toggle_sign ⟨e, hist⟩ = ⟨"-" ++ e, hist⟩ := by
  simp only [CalculatorLogic.toggle_sign]
  rw [if_neg h, hp]
  simp [hd]

theorem toggle_strip (e : String) (hist : List String)
    (hp : pyFloatParse ("-" ++ e) = none) :
    CalculatorLogic.toggle_sign ⟨"-" ++ e, hist⟩ = ⟨e, hist⟩ := by
  simp only [CalculatorLogic.toggle_sign]
  rw [if_neg (dash_ne_empty e), hp]
  simp [startsDash_dash, strDropFirst_dash]

/-! ## The claims -/

/-- Claim C1: the spec demands that only the fifteen allowed names resolve
and that any attribute access fails with the "Invalid expression" outcome
without reaching the host environment.  The code violates this: `eval`
with an empty `__builtins__` dict still performs attribute access, so the
buffer `"pi.real"` evaluates to `3.141592653589793`, is recorded in
history and returned — the allowlist sandbox is escapable through
attributes.  This theorem evaluates the embedded `safe_eval` at that
failing input. -/
theorem safe_eval_attribute_access_escapes :
    CalculatorLogic.safe_eval ⟨"pi.real", []⟩ =
      ("3.141592653589793",
        ⟨"3.141592653589793", ["pi.real = 3.141592653589793"]⟩) ∧
    ("3.141592653589793" : String) ≠ "Invalid expression" :=
  ⟨by decide, by decide⟩

/-- Claim C2 (counterexample): the claim counts a non-numeric result as a
failure that must surface as "Invalid expression" with history unchanged,
but the buffer `"abs"` evaluates (without raising) to the builtin function
object itself, and `safe_eval` returns `str(abs)` and records it in
history. -/
theorem safe_eval_abs_nonnumeric_success :
    CalculatorLogic.safe_eval ⟨"abs", []⟩ =
      ("<built-in function abs>",
        ⟨"<built-in function abs>", ["abs = <built-in function abs>"]⟩) ∧
    ("<built-in function abs>" : String) ≠ "Invalid expression" :=
  ⟨by decide, by decide⟩

/-- Claim C2 (amended): for every non-empty buffer whose evaluation raises
any exception other than division by zero — malformed syntax, an unknown
name, a wrong arity — `safe_eval` returns exactly "Invalid expression",
resets the buffer to empty, and leaves the history unchanged.  (A
non-raising evaluation with a non-numeric result is treated as a success
by the code; see the counterexample.) -/
theorem safe_eval_exception_contract (st : CalcState) (h : st.expression ≠ "")
    (he : pyEval (pyStrip st.expression) = .exc) :
    CalculatorLogic.safe_eval st = ("Invalid expression", ⟨"", st.history⟩) :=
  safe_eval_of_exc st h he

theorem safe_eval_exception_contract_witness :
    CalculatorLogic.safe_eval ⟨"2+", ["old"]⟩ =
      ("Invalid expression", ⟨"", ["old"]⟩) :=
  safe_eval_exception_contract ⟨"2+", ["old"]⟩ (by decide) (by decide)

/-- Claim C3: after any public operation the history length stays at most
20; every operation either leaves the history unchanged or appends exactly
one record, evicting the oldest entry (index 0) precisely when the history
was full, with the relative order of the remaining records preserved — so
cap-driven eviction is the only way a record is ever removed or
changed. -/
theorem history_cap_fifo (op : CalcOp) (st : CalcState)
    (h : st.history.length ≤ 20) :
    (applyOp op st).history.length ≤ 20 ∧
      ((applyOp op st).history = st.history ∨
        (∃ r, st.history.length < 20 ∧
          (applyOp op st).history = st.history ++ [r]) ∨
        (∃ r, st.history.length = 20 ∧
          (applyOp op st).history = st.history.drop 1 ++ [r])) := by
  cases op with
  | clear => exact ⟨h, Or.inl rfl⟩
  | backspace =>
    exact ⟨(backspace_history_eq st).symm ▸ h, Or.inl (backspace_history_eq st)⟩
  | append t =>
    exact ⟨(append_token_history_eq t st).symm ▸ h,
      Or.inl (append_token_history_eq t st)⟩
  | toggleSign =>
    exact ⟨(toggle_sign_history_eq st).symm ▸ h,
      Or.inl (toggle_sign_history_eq st)⟩
  | invert =>
    exact ⟨(invert_history_eq st).symm ▸ h, Or.inl (invert_history_eq st)⟩
  | evaluate =>
    by_cases hemp : st.expression = ""
    · have h2 : (applyOp .evaluate st).history = st.history := by
        show (CalculatorLogic.safe_eval st).2.history = st.history
        rw [safe_eval_of_empty st hemp]
      exact ⟨h2.symm ▸ h, Or.inl h2⟩
    · cases hout : pyEval (pyStrip st.expression) with
      | zeroDiv =>
        have h2 : (applyOp .evaluate st).history = st.history := by
          show (CalculatorLogic.safe_eval st).2.history = st.history
          rw [safe_eval_of_zdiv st hemp hout]
        exact ⟨h2.symm ▸ h, Or.inl h2⟩
      | exc =>
        have h2 : (applyOp .evaluate st).history = st.history := by
          show (CalculatorLogic.safe_eval st).2.history = st.history
          rw [safe_eval_of_exc st hemp hout]
        exact ⟨h2.symm ▸ h, Or.inl h2⟩
      | ok v =>
        have h2 : (applyOp .evaluate st).history =
            capHist (st.history ++ [st.expression ++ " = " ++ pyStr v]) := by
          show (CalculatorLogic.safe_eval st).2.history = _
          rw [safe_eval_of_ok st v hemp hout]
        by_cases hlt : st.history.length < 20
        · have hc : capHist (st.history ++ [st.expression ++ " = " ++ pyStr v]) =
              st.history ++ [st.expression ++ " = " ++ pyStr v] := by
            unfold capHist
            rw [if_neg]
            simp only [List.length_append, List.length_singleton]
            omega
          refine ⟨?_, Or.inr (Or.inl ⟨_, hlt, by rw [h2, hc]⟩)⟩
          rw [h2, hc]
          simp only [List.length_append, List.length_singleton]
          omega
        · have h20 : st.history.length = 20 := by omega
          have hdrop : (st.history ++ [st.expression ++ " = " ++ pyStr v]).drop 1 =
              st.history.drop 1 ++ [st.expression ++ " = " ++ pyStr v] :=
            List.drop_append_of_le_length (by omega)
          have hc : capHist (st.history ++ [st.expression ++ " = " ++ pyStr v]) =
              st.history.drop 1 ++ [st.expression ++ " = " ++ pyStr v] := by
            unfold capHist
            rw [if_pos, hdrop]
            simp only [List.length_append, List.length_singleton]
            omega
          refine ⟨?_, Or.inr (Or.inr ⟨_, h20, by rw [h2, hc]⟩)⟩
          rw [h2, hc]
          simp only [List.length_append, List.length_singleton, List.length_drop]
          omega

theorem history_cap_fifo_witness :
    (applyOp CalcOp.clear ⟨"x", ["a"]⟩).history.length ≤ 20 ∧
      ((applyOp CalcOp.clear ⟨"x", ["a"]⟩).history = ["a"] ∨
        (∃ r, (["a"] : List String).length < 20 ∧
          (applyOp CalcOp.clear ⟨"x", ["a"]⟩).history = ["a"] ++ [r]) ∨
        (∃ r, (["a"] : List String).length = 20 ∧
          (applyOp CalcOp.clear ⟨"x", ["a"]⟩).history =
            (["a"] : List String).drop 1 ++ [r])) :=
  history_cap_fifo CalcOp.clear ⟨"x", ["a"]⟩ (by decide)

/-- Claim C4: every non-empty buffer whose evaluation raises a division by
zero makes `safe_eval` return exactly "Cannot divide by zero", reset the
buffer to empty and leave the history unchanged; the buffer `"5/0"` is
such a buffer. -/
theorem safe_eval_zero_division_contract :
    (∀ st : CalcState, st.expression ≠ "" →
      pyEval (pyStrip st.expression) = .zeroDiv →
      CalculatorLogic.safe_eval st =
        ("Cannot divide by zero", ⟨"", st.history⟩)) ∧
    pyEval (pyStrip "5/0") = .zeroDiv :=
  ⟨fun st h he => safe_eval_of_zdiv st h he, by decide⟩

theorem safe_eval_zero_division_witness :
    CalculatorLogic.safe_eval ⟨"5/0", ["k"]⟩ =
      ("Cannot divide by zero", ⟨"", ["k"]⟩) :=
  safe_eval_zero_division_contract.1 ⟨"5/0", ["k"]⟩ (by decide) (by decide)

/-- Claim C5: every non-empty buffer whose evaluation succeeds makes
`safe_eval` return the default string rendering of the result, append the
single record `"<original buffer> = <result string>"` to the (capped)
history, and replace the buffer with the result string; in particular
`"2+3"` returns `"5"`, the history gains exactly the entry `"2+3 = 5"`,
and the buffer becomes `"5"`. -/
theorem safe_eval_success_contract :
    (∀ (st : CalcState) (v : PyVal), st.expression ≠ "" →
      pyEval (pyStrip st.expression) = .ok v →
      CalculatorLogic.safe_eval st =
        (pyStr v, ⟨pyStr v,
          capHist (st.history ++ [st.expression ++ " = " ++ pyStr v])⟩)) ∧
    CalculatorLogic.safe_eval ⟨"2+3", []⟩ = ("5", ⟨"5", ["2+3 = 5"]⟩) :=
  ⟨fun st v h he => safe_eval_of_ok st v h he, by decide⟩

theorem safe_eval_success_witness :
    CalculatorLogic.safe_eval ⟨"2+3", ["a"]⟩ = ("5", ⟨"5", ["a", "2+3 = 5"]⟩) :=
  (safe_eval_success_contract.1 ⟨"2+3", ["a"]⟩ (.vInt 5)
    (by decide) (by decide)).trans (by decide)

/-- Claim C6: `toggle_sign` is a no-op on the empty buffer; a buffer that
`float()` accepts is replaced wholesale by the decimal string of its
negation; otherwise a leading minus is stripped if present, else
prepended.  Concretely the numeric buffer `"4"` becomes `"-4.0"` and then
`"4.0"`, whose parsed value equals that of the original `"4"`. -/
theorem toggle_sign_contract :
    (∀ st : CalcState, st.expression = "" →
      CalculatorLogic.toggle_sign st = st) ∧
    (∀ (st : CalcState) (v : PyFloat), pyFloatParse st.expression = some v →
      CalculatorLogic.toggle_sign st = ⟨floatStr (pyNegF v), st.history⟩) ∧
    (∀ st : CalcState, st.expression ≠ "" →
      pyFloatParse st.expression = none →
      CalculatorLogic.toggle_sign st =
        ⟨(if startsDash st.expression then strDropFirst st.expression
          else "-" ++ st.expression), st.history⟩) ∧
    CalculatorLogic.toggle_sign ⟨"4", []⟩ = ⟨"-4.0", []⟩ ∧
    CalculatorLogic.toggle_sign ⟨"-4.0", []⟩ = ⟨"4.0", []⟩ ∧
    pyFloatParse "4" = some (.finite ⟨4, 1⟩) ∧
    pyFloatParse "4.0" = some (.finite ⟨4, 1⟩) := by
  refine ⟨?_, ?_, ?_, by decide, by decide, by decide, by decide⟩
  · intro st h
    unfold CalculatorLogic.toggle_sign
    rw [if_pos h]
  · intro st v hv
    have hne : st.expression ≠ "" := by
      intro h0
      rw [h0, pyFloatParse_empty] at hv
      exact Option.noConfusion hv
    unfold CalculatorLogic.toggle_sign
    rw [if_neg hne, hv]
  · intro st h hp
    unfold CalculatorLogic.toggle_sign
    rw [if_neg h, hp]
    by_cases hd : startsDash st.expression = true
    · simp [hd]
    · simp [hd]

theorem toggle_sign_contract_witness :
    CalculatorLogic.toggle_sign ⟨"2+", ["h"]⟩ = ⟨"-2+", ["h"]⟩ :=
  (toggle_sign_contract.2.2.1 ⟨"2+", ["h"]⟩ (by decide) (by decide)).trans
    (by decide)

/-- Claim C7: `append_token` substitutes exactly the five glyph mappings —
multiplication sign to `*`, division sign to `/`, caret to `**`, pi symbol
to `pi`, root symbol to `sqrt(` — appends every other token verbatim, and
has no other effect on the buffer or the history. -/
theorem append_token_contract :
    (∀ (t : String) (st : CalcState), CalculatorLogic.append_token t st =
      ⟨st.expression ++ CalculatorLogic.normalizeToken t, st.history⟩) ∧
    CalculatorLogic.normalizeToken "×" = "*" ∧
    CalculatorLogic.normalizeToken "÷" = "/" ∧
    CalculatorLogic.normalizeToken "^" = "**" ∧
    CalculatorLogic.normalizeToken "π" = "pi" ∧
    CalculatorLogic.normalizeToken "√" = "sqrt(" ∧
    (∀ t : String, t ≠ "×" → t ≠ "÷" → t ≠ "^" → t ≠ "π" → t ≠ "√" →
      CalculatorLogic.normalizeToken t = t) := by
  refine ⟨fun t st => rfl, by decide, by decide, by decide, by decide,
    by decide, ?_⟩
  intro t h1 h2 h3 h4 h5
  unfold CalculatorLogic.normalizeToken
  rw [if_neg h1, if_neg h2, if_neg h3, if_neg h4, if_neg h5]

theorem append_token_contract_witness :
    CalculatorLogic.normalizeToken "7" = "7" :=
  append_token_contract.2.2.2.2.2.2 "7" (by decide) (by decide) (by decide)
    (by decide) (by decide)

/-- Claim C8: `safe_eval` on the empty buffer returns the string "0" and
leaves the state — buffer and history — entirely unchanged. -/
theorem safe_eval_empty_contract (st : CalcState) (h : st.expression = "") :
    CalculatorLogic.safe_eval st = ("0", st) :=
  safe_eval_of_empty st h

theorem safe_eval_empty_witness :
    CalculatorLogic.safe_eval ⟨"", ["a", "b"]⟩ = ("0", ⟨"", ["a", "b"]⟩) :=
  safe_eval_empty_contract ⟨"", ["a", "b"]⟩ rfl

/-- Claim C9: `append_token`, `toggle_sign`, `invert`, `backspace` and
`clear` never modify the history, for every starting state — `safe_eval`
is the sole writer of history. -/
theorem history_frame (st : CalcState) :
    (∀ t, (CalculatorLogic.append_token t st).history = st.history) ∧
    (CalculatorLogic.toggle_sign st).history = st.history ∧
    (CalculatorLogic.invert st).history = st.history ∧
    (CalculatorLogic.backspace st).history = st.history ∧
    (CalculatorLogic.clear st).history = st.history :=
  ⟨fun t => append_token_history_eq t st, toggle_sign_history_eq st,
    invert_history_eq st, backspace_history_eq st, clear_history_eq st⟩

/-- Claim C10 (counterexample): the buffer `"-"` is non-empty and is not
accepted by `float()`, yet two consecutive `toggle_sign` calls do not
restore it: the first strips the minus leaving the empty buffer, and the
second is a no-op on empty, ending at `""` instead of `"-"`. -/
theorem toggle_sign_dash_not_restored :
    CalculatorLogic.toggle_sign (CalculatorLogic.toggle_sign ⟨"-", []⟩) =
      ⟨"", []⟩ ∧
    CalcState.mk "" [] ≠ CalcState.mk "-" [] ∧
    pyFloatParse "-" = none ∧ ("-" : String) ≠ "" :=
  ⟨by decide, by decide, by decide, by decide⟩

/-- Claim C10 (amended): for a non-empty buffer rejected by `float()`,
two consecutive `toggle_sign` calls restore it exactly, provided it does
not begin with a minus; when it does begin with a minus, the same holds
provided the remainder after the minus is non-empty, does not itself begin
with a minus, and is also rejected by `float()` (the counterexamples `"-"`,
`"--x"` and `"-nan"` show each proviso is necessary). -/
theorem toggle_sign_involution (st : CalcState) (h : st.expression ≠ "")
    (hp : pyFloatParse st.expression = none) :
    (startsDash st.expression = false →
      CalculatorLogic.toggle_sign (CalculatorLogic.toggle_sign st) = st) ∧
    (∀ t : String, st.expression = "-" ++ t → t ≠ "" →
      startsDash t = false → pyFloatParse t = none →
      CalculatorLogic.toggle_sign (CalculatorLogic.toggle_sign st) = st) := by
  constructor
  · intro hd
    have hp2 : pyFloatParse ("-" ++ st.expression) = none := by
      cases hc : pyFloatParse ("-" ++ st.expression) with
      | none => rfl
      | some v =>
        obtain ⟨w, hw⟩ := dash_parse hc
        rw [hw] at hp
        exact Option.noConfusion hp
    show CalculatorLogic.toggle_sign
      (CalculatorLogic.toggle_sign ⟨st.expression, st.history⟩) = st
    rw [toggle_prepend st.expression st.history h hp hd,
      toggle_strip st.expression st.history hp2]
  · intro t he ht hd hpt
    rw [he] at hp
    show CalculatorLogic.toggle_sign
      (CalculatorLogic.toggle_sign ⟨st.expression, st.history⟩) = st
    rw [he, toggle_strip t st.history hp,
      toggle_prepend t st.history ht hpt hd, ← he]

theorem toggle_sign_involution_witness :
    CalculatorLogic.toggle_sign (CalculatorLogic.toggle_sign ⟨"2+", []⟩) =
      ⟨"2+", []⟩ :=
  (toggle_sign_involution ⟨"2+", []⟩ (by decide) (by decide)).1 (by decide)
